import Mathlib

/-!
# Shallow embedding of `keithley617.py`

The module drives a Keithley 617 electrometer over a GPIB command channel.
Device I/O is modelled explicitly: commands sent, sleeps and callback
invocations are recorded as a trace of `Event`s, and the device's response
lines are supplied as a `List String` consumed in order by `readline`.
Python exceptions become the `PyErr` type; a `readline` with no response
left models a device that never answers (`Outcome.blocked`).

Numeric values (Python floats and ints) are modelled as `ℚ` and `ℤ` with
exact arithmetic; decimal literals of the source (`0.360`, `0.05`, `1e-10`)
become the corresponding rationals.
-/

namespace Keithley617

/-- One observable side effect of the driver: a GPIB primitive, a command
write, a sleep, a response line read, a callback invocation, or a printed
warning. -/
inductive Event where
  | openConn
  | closeConn
  | clear
  | write (cmd : String)
  | sleep (secs : ℚ)
  | readline (line : String)
  | callback (t v : ℚ)
  | warn (msg : String)
  deriving DecidableEq, Repr

/-- Python exceptions raised by the module: `Error` (the module's own error
class, carrying its message), `NameError` (an undefined global name),
`ValueError` (bad `float()` argument) and `IndexError` (bad list index). -/
inductive PyErr where
  | Error (msg : String)
  | NameError (name : String)
  | ValueError
  | IndexError
  deriving DecidableEq, Repr

/-- Result of running a driver function against a finite response stream:
a normal return, a raised exception, or blocking forever on `readline`
because the stream is exhausted. -/
inductive Outcome (α : Type) where
  | ok (v : α)
  | err (e : PyErr)
  | blocked
  deriving DecidableEq, Repr

deriving instance DecidableEq for Except

/-! ## Python string and number primitives used by the source -/

/-- `charsIsPrefix a b` is true when `a` is a prefix of `b` (char lists). -/
def charsIsPrefix : List Char → List Char → Bool
  | [], _ => true
  | _ :: _, [] => false
  | a :: as, b :: bs => a = b && charsIsPrefix as bs

/-- `charsIsSub a b` is true when `a` occurs contiguously inside `b`. -/
def charsIsSub (sub : List Char) : List Char → Bool
  | [] => charsIsPrefix sub []
  | b :: bs => charsIsPrefix sub (b :: bs) || charsIsSub sub bs

/-- Python's substring test `sub in s`. -/
def pyIn (sub s : String) : Bool :=
  charsIsSub sub.toList s.toList

/-- Index of the first occurrence of `c`, if any. -/
def charsFind (c : Char) : List Char → Option ℕ
  | [] => none
  | a :: as => if a = c then some 0 else (charsFind c as).map (· + 1)

/-- Python's `s.find(c)`: index of the first occurrence of `c`, or `-1`. -/
def pyFind (s : String) (c : Char) : ℤ :=
  match charsFind c s.toList with
  | some n => (n : ℤ)
  | none => -1

/-- Normalize a Python slice bound for a string of length `L`. -/
def pySliceIdx (L i : ℤ) : ℤ :=
  if i < 0 then max (L + i) 0 else min i L

/-- Python's slice `s[a:b]`, including negative-index semantics. -/
def pySlice (s : String) (a b : ℤ) : String :=
  let L : ℤ := (s.toList.length : ℤ)
  let a' := pySliceIdx L a
  let b' := pySliceIdx L b
  String.mk ((s.toList.drop a'.toNat).take (b'.toNat - a'.toNat))

/-- Leading decimal digits of a char list, and the remainder. -/
def takeDigits : List Char → List Char × List Char
  | [] => ([], [])
  | c :: cs =>
    if c.isDigit then
      let (ds, rest) := takeDigits cs
      (c :: ds, rest)
    else ([], c :: cs)

/-- Numeric value of a digit string. -/
def digitsToNat (ds : List Char) : ℕ :=
  ds.foldl (fun acc c => acc * 10 + (c.toNat - 48)) 0

/-- `10 ^ e` over `ℚ` for an integer exponent. -/
def pow10 (e : ℤ) : ℚ :=
  if 0 ≤ e then ((10 : ℚ) ^ e.toNat) else 1 / (10 : ℚ) ^ (-e).toNat

/-- Python's `float(s)` on decimal/scientific literals, as an exact
rational; `none` models the `ValueError` raised on a malformed string. -/
def pyFloat (s : String) : Option ℚ :=
  let cs := s.toList
  let (sgn, cs) :=
    match cs with
    | '+' :: r => ((1 : ℚ), r)
    | '-' :: r => ((-1 : ℚ), r)
    | r => ((1 : ℚ), r)
  let (ip, cs) := takeDigits cs
  let (hasDot, fp, cs) :=
    match cs with
    | '.' :: r =>
      let (fp, r') := takeDigits r
      (true, fp, r')
    | r => (false, ([] : List Char), r)
  if ip.isEmpty ∧ (¬ hasDot ∨ fp.isEmpty) then none
  else
    let mant : ℚ := sgn * ((digitsToNat ip : ℚ) + (digitsToNat fp : ℚ) / (10 : ℚ) ^ fp.length)
    match cs with
    | [] => some mant
    | e :: r =>
      if e = 'e' ∨ e = 'E' then
        let (esgn, r) :=
          match r with
          | '+' :: r' => ((1 : ℤ), r')
          | '-' :: r' => ((-1 : ℤ), r')
          | r' => ((1 : ℤ), r')
        let (eds, r) := takeDigits r
        if eds.isEmpty ∨ ¬ r.isEmpty then none
        else some (mant * pow10 (esgn * (digitsToNat eds : ℤ)))
      else none

/-- Left-pad a string with `'0'` to width `w`. -/
def padZero (w : ℕ) (s : String) : String :=
  if s.length < w then String.mk (List.replicate (w - s.length) '0') ++ s else s

/-- Python's `"%03d" % n`: zero-padded to total width 3, sign included. -/
def fmt03 (n : ℤ) : String :=
  if n < 0 then "-" ++ padZero 2 (toString n.natAbs) else padZero 3 (toString n.toNat)

/-- The sample index tag `",%03d" % n` searched for in response lines. -/
def tag (n : ℤ) : String :=
  "," ++ fmt03 n

/-- Python 2's `round`: nearest integer, ties away from zero. -/
def pyRound (q : ℚ) : ℤ :=
  if 0 ≤ q then ⌊q + 1 / 2⌋ else -⌊-q + 1 / 2⌋

/-- Python's `"%.2f" % v` (idealized to exact decimal rounding of the
rational value, ties away from zero). -/
def pyFmt2 (v : ℚ) : String :=
  let n := pyRound (v * 100)
  let body := fun (m : ℕ) => toString (m / 100) ++ "." ++ padZero 2 (toString (m % 100))
  if n < 0 then "-" ++ body n.natAbs else body n.toNat

/-! ## Error messages of the source -/

/-- Message of `read_multiple`'s first validation check. -/
def intervalValuesMsg : String :=
  "ERROR: The Keithley 617 allows interval values of 0, 1, 10, 60, 600, and 3600"

/-- Message of `read_multiple`'s sample-count check. -/
def maxSamplesMsg : String :=
  "ERROR: The Keithley 617 allows a maximum of 100 samples."

/-- Message of the `else` branch of the storage-rate command chain
(`read_multiple` and `read_one`). -/
def sampleIntervalsMsg : String :=
  "ERROR: The Keithley 617 allows sample intervals of 0, 1, 10, 60, 600, or 3600 seconds."

/-- Message raised by `open_connection` when the device is silent. -/
def notRespondingMsg : String :=
  "ERROR: The Keithley 617 is not responding, make sure it is turned on."

/-- Warning printed by `set_voltage_source`. -/
def resolutionMsg : String :=
  "Warning: The voltage source in the Keithley 617 has a maximum resolution of 50 mV."

/-! ## The driver functions -/

/-- The `if interval == 0 ... elif ... else raise` chain shared verbatim by
`read_multiple` and `read_one`: the storage-rate/trigger command for a legal
interval, `none` for the `else: raise Error(...)` branch. -/
def storage_rate_cmd (interval : ℚ) : Option String :=
  if interval = 0 then some "B1Q0G2X"
  else if interval = 1 then some "B1Q1G2X"
  else if interval = 10 then some "B1Q2G2X"
  else if interval = 60 then some "B1Q3G2X"
  else if interval = 600 then some "B1Q4G2X"
  else if interval = 3600 then some "B1Q5G2X"
  else none

/-- One execution of the body of `read_multiple`'s `while` loop up to (but
not including) the trailing `gpib.write("B1X"); Datum = gpib.readline()`:
given the current response line and loop state `(Time, Data, CurrentSample)`,
returns the new state and the events of the taken branch, or the
`ValueError` of a failed `float()`. -/
def loop_body_rm (interval : ℚ) (Datum : String) (Time Data : List ℚ)
    (CurrentSample : ℤ) : Except PyErr ((List ℚ × List ℚ × ℤ) × List Event) :=
  if pyIn (tag CurrentSample) Datum then
    match pyFloat (pySlice Datum 4 (pyFind Datum ',')) with
    | none => .error .ValueError
    | some v =>
      let t : ℚ :=
        if interval = 0 then ((CurrentSample : ℚ) - 1) * (36 / 100)
        else ((CurrentSample : ℚ) - 1) * interval
      .ok ((Time ++ [t], Data ++ [v], CurrentSample + 1),
           [Event.callback t v, Event.sleep interval])
  else if pyIn (tag (CurrentSample - 1)) Datum then
    .ok ((Time, Data, CurrentSample), [Event.sleep interval])
  else
    .ok ((Time, Data, CurrentSample), [])

/-- `read_multiple`'s `while CurrentSample <= samples` loop, consuming one
response line per iteration; ends with the `gpib.write("Q7X")` on normal
exit. -/
def loopRM (interval : ℚ) (samples : ℤ) (Datum : String) (input : List String)
    (Time Data : List ℚ) (CurrentSample : ℤ) (evs : List Event) :
    Outcome (List ℚ × List ℚ) × List Event :=
  if CurrentSample ≤ samples then
    match loop_body_rm interval Datum Time Data CurrentSample with
    | .error e => (.err e, evs)
    | .ok ((Time', Data', cs'), bev) =>
      match input with
      | [] => (.blocked, evs ++ bev ++ [Event.write "B1X"])
      | d :: rest =>
        loopRM interval samples d rest Time' Data' cs'
          (evs ++ bev ++ [Event.write "B1X", Event.readline d])
  else
    (.ok (Time, Data), evs ++ [Event.write "Q7X"])

/-- `read_multiple(interval, samples, update_graph, *args)`: validation,
storage-rate configuration, initial sleep and read, then the polling loop. -/
def read_multiple (interval : ℚ) (samples : ℤ) (input : List String) :
    Outcome (List ℚ × List ℚ) × List Event :=
  if interval ∉ ([0, 1, 10, 60, 600, 3600] : List ℚ) then
    (.err (.Error intervalValuesMsg), [])
  else if samples > 100 then
    (.err (.Error maxSamplesMsg), [])
  else
    match storage_rate_cmd interval with
    | none => (.err (.Error sampleIntervalsMsg), [])
    | some cmd =>
      match input with
      | [] => (.blocked, [Event.write cmd, Event.sleep interval])
      | d :: rest =>
        loopRM interval samples d rest [] [] 1
          [Event.write cmd, Event.sleep interval, Event.readline d]

/-- One execution of the body of `read_one`'s `while` loop up to the
trailing write/readline: like `loop_body_rm` but with no `Time` list and no
callback. -/
def loop_body_ro (interval : ℚ) (Datum : String) (Data : List ℚ)
    (CurrentSample : ℤ) : Except PyErr ((List ℚ × ℤ) × List Event) :=
  if pyIn (tag CurrentSample) Datum then
    match pyFloat (pySlice Datum 4 (pyFind Datum ',')) with
    | none => .error .ValueError
    | some v =>
      .ok ((Data ++ [v], CurrentSample + 1), [Event.sleep interval])
  else if pyIn (tag (CurrentSample - 1)) Datum then
    .ok ((Data, CurrentSample), [Event.sleep interval])
  else
    .ok ((Data, CurrentSample), [])

/-- `read_one`'s `while CurrentSample <= samples` loop; returns the final
`Data` list on normal exit (the source then takes `Data[-1]`). -/
def loopRO (interval : ℚ) (samples : ℤ) (Datum : String) (input : List String)
    (Data : List ℚ) (CurrentSample : ℤ) (evs : List Event) :
    Outcome (List ℚ) × List Event :=
  if CurrentSample ≤ samples then
    match loop_body_ro interval Datum Data CurrentSample with
    | .error e => (.err e, evs)
    | .ok ((Data', cs'), bev) =>
      match input with
      | [] => (.blocked, evs ++ bev ++ [Event.write "B1X"])
      | d :: rest =>
        loopRO interval samples d rest Data' cs'
          (evs ++ bev ++ [Event.write "B1X", Event.readline d])
  else
    (.ok Data, evs ++ [Event.write "Q7X"])

/-- `read_one(interval)` up to (but not including) the final
`return Data[-1]`: configuration (with the same interval chain, raising on
an illegal interval), `samples = 2`, initial read (no initial sleep), and
the polling loop, returning the final `Data` list. -/
def read_one_run (interval : ℚ) (input : List String) :
    Outcome (List ℚ) × List Event :=
  match storage_rate_cmd interval with
  | none => (.err (.Error sampleIntervalsMsg), [])
  | some cmd =>
    match input with
    | [] => (.blocked, [Event.write cmd])
    | d :: rest =>
      loopRO interval 2 d rest [] 1 [Event.write cmd, Event.readline d]

/-- `read_one(interval)`: the run above followed by `return Data[-1]`. -/
def read_one (interval : ℚ) (input : List String) : Outcome ℚ × List Event :=
  match read_one_run interval input with
  | (.ok Data, evs) =>
    match Data.getLast? with
    | some v => (.ok v, evs)
    | none => (.err .IndexError, evs)
  | (.err e, evs) => (.err e, evs)
  | (.blocked, evs) => (.blocked, evs)

/-- `read`'s result: a `(Time, Data)` series from `read_multiple` or the
scalar of `read_one`. -/
inductive ReadResult where
  | series (Time Data : List ℚ)
  | single (v : ℚ)
  deriving DecidableEq, Repr

/-- `read(interval, samples, update_graph, *args)`: for `samples > 1` the
source evaluates the call `read_multiple(interval, samples, update_graph,
figure)`, and the global name `figure` is bound nowhere in the module, so
argument evaluation raises `NameError` before `read_multiple` runs;
otherwise it delegates to `read_one(interval)`. -/
def read (interval : ℚ) (samples : ℤ) (input : List String) :
    Outcome ReadResult × List Event :=
  if samples > 1 then
    (.err (.NameError "figure"), [])
  else
    match read_one interval input with
    | (.ok v, evs) => (.ok (.single v), evs)
    | (.err e, evs) => (.err e, evs)
    | (.blocked, evs) => (.blocked, evs)

/-- `open_connection()`: open the channel, address the device, reset it,
send `C0X` twice, read one line and check it for the `"DC"` marker. -/
def open_connection (input : List String) : Outcome Unit × List Event :=
  let evs := [Event.openConn, Event.write "++addr 27", Event.clear,
              Event.write "C0X", Event.write "C0X"]
  match input with
  | [] => (.blocked, evs)
  | reading :: _ =>
    if ¬ pyIn "DC" reading then
      (.err (.Error notRespondingMsg), evs ++ [Event.readline reading])
    else
      (.ok (), evs ++ [Event.readline reading])

/-- `set_voltage_source(voltage)`: warn when `voltage` is not a multiple of
the 0.05 V resolution (to tolerance 1e-10 after dividing by 0.05), then send
the `"V%.2fX"` command unconditionally. -/
def set_voltage_source (voltage : ℚ) : List Event :=
  (if |voltage / (5 / 100) - (pyRound (voltage / (5 / 100)) : ℚ)| > 1 / 10000000000
   then [Event.warn resolutionMsg] else [])
  ++ [Event.write ("V" ++ pyFmt2 voltage ++ "X")]

/-- The time step between consecutive derived timestamps in
`read_multiple`: `0.360` (manual page 3-24) for interval 0, else the
interval itself. -/
def sampleRate (interval : ℚ) : ℚ :=
  if interval = 0 then 36 / 100 else interval

/-! ## Helper lemmas -/

/-- `loopRO` only ever appends to the event trace it is given. -/
theorem loopRO_events_extend (interval : ℚ) (samples : ℤ) :
    ∀ (input : List String) (Datum : String) (Data : List ℚ) (cs : ℤ)
      (evs : List Event),
      ∃ extra, (loopRO interval samples Datum input Data cs evs).2 = evs ++ extra := by
  intro input
  induction input with
  | nil =>
    intro Datum Data cs evs
    unfold loopRO
    split
    · rcases hb : loop_body_ro interval Datum Data cs with e | ⟨⟨Data', cs'⟩, bev⟩
      · exact ⟨[], by simp⟩
      · exact ⟨bev ++ [Event.write "B1X"], by simp⟩
    · exact ⟨[Event.write "Q7X"], rfl⟩
  | cons d rest ih =>
    intro Datum Data cs evs
    unfold loopRO
    split
    · rcases hb : loop_body_ro interval Datum Data cs with e | ⟨⟨Data', cs'⟩, bev⟩
      · exact ⟨[], by simp⟩
      · obtain ⟨extra, he⟩ :=
          ih d Data' cs' (evs ++ bev ++ [Event.write "B1X", Event.readline d])
        refine ⟨bev ++ [Event.write "B1X", Event.readline d] ++ extra, ?_⟩
        show (loopRO interval samples d rest Data' cs'
          (evs ++ bev ++ [Event.write "B1X", Event.readline d])).2 = _
        rw [he]
        simp
    · exact ⟨[Event.write "Q7X"], rfl⟩

/-- A successful single-sample loop body either appends one value and
advances the index, or leaves both unchanged. -/
theorem loop_body_ro_state (interval : ℚ) (Datum : String) (Data : List ℚ)
    (cs : ℤ) (Data' : List ℚ) (cs' : ℤ) (bev : List Event)
    (hb : loop_body_ro interval Datum Data cs = .ok ((Data', cs'), bev)) :
    (∃ v, Data' = Data ++ [v] ∧ cs' = cs + 1) ∨ (Data' = Data ∧ cs' = cs) := by
  unfold loop_body_ro at hb
  split at hb
  · rcases hp : pyFloat (pySlice Datum 4 (pyFind Datum ',')) with _ | v <;>
      rw [hp] at hb
    · cases hb
    · simp only [Except.ok.injEq, Prod.mk.injEq] at hb
      exact Or.inl ⟨v, hb.1.1.symm, hb.1.2.symm⟩
  · split at hb <;>
    · simp only [Except.ok.injEq, Prod.mk.injEq] at hb
      exact Or.inr ⟨hb.1.1.symm, hb.1.2.symm⟩

/-- Length of the `Data` list when `loopRO` exits normally. -/
theorem loopRO_ok_length (interval : ℚ) (samples : ℤ) :
    ∀ (input : List String) (Datum : String) (Data : List ℚ) (cs : ℤ)
      (evs : List Event) (D : List ℚ),
      (loopRO interval samples Datum input Data cs evs).1 = .ok D →
      D.length = Data.length + (samples + 1 - cs).toNat := by
  intro input
  induction input with
  | nil =>
    intro Datum Data cs evs D h
    unfold loopRO at h
    split at h
    · rcases hb : loop_body_ro interval Datum Data cs with e | ⟨⟨Data', cs'⟩, bev⟩ <;>
        rw [hb] at h <;> simp at h
    · rename_i hcs
      simp only [Outcome.ok.injEq] at h
      subst h
      omega
  | cons d rest ih =>
    intro Datum Data cs evs D h
    unfold loopRO at h
    split at h
    · rename_i hcs
      rcases hb : loop_body_ro interval Datum Data cs with e | ⟨⟨Data', cs'⟩, bev⟩ <;>
        rw [hb] at h
      · simp at h
      · have hlen := ih d Data' cs' _ D h
        rcases loop_body_ro_state interval Datum Data cs Data' cs' bev hb with
          ⟨v, hD, hcs'⟩ | ⟨hD, hcs'⟩ <;> subst hD <;> subst hcs' <;>
          simp only [List.length_append, List.length_cons, List.length_nil] at hlen ⊢ <;>
          omega
    · rename_i hcs
      simp only [Outcome.ok.injEq] at h
      subst h
      omega

/-- A successful multi-sample loop body either appends the derived time and
one value and advances the index, or leaves all three unchanged. -/
theorem loop_body_rm_state (interval : ℚ) (Datum : String)
    (Time Data : List ℚ) (cs : ℤ) (Time' Data' : List ℚ) (cs' : ℤ)
    (bev : List Event)
    (hb : loop_body_rm interval Datum Time Data cs = .ok ((Time', Data', cs'), bev)) :
    (∃ v, Time' = Time ++
        [if interval = 0 then ((cs : ℚ) - 1) * (36 / 100) else ((cs : ℚ) - 1) * interval] ∧
      Data' = Data ++ [v] ∧ cs' = cs + 1) ∨
    (Time' = Time ∧ Data' = Data ∧ cs' = cs) := by
  unfold loop_body_rm at hb
  split at hb
  · rcases hp : pyFloat (pySlice Datum 4 (pyFind Datum ',')) with _ | v <;>
      rw [hp] at hb
    · cases hb
    · simp only [Except.ok.injEq, Prod.mk.injEq] at hb
      exact Or.inl ⟨v, hb.1.1.symm, hb.1.2.1.symm, hb.1.2.2.symm⟩
  · split at hb <;>
    · simp only [Except.ok.injEq, Prod.mk.injEq] at hb
      exact Or.inr ⟨hb.1.1.symm, hb.1.2.1.symm, hb.1.2.2.symm⟩

/-- Invariant of `loopRM`: if `Time` holds the derived timestamps for the
first `cs - 1` samples, a normal exit returns the timestamps for all
`samples` samples. -/
theorem loopRM_ok_times (interval : ℚ) (samples : ℤ) :
    ∀ (input : List String) (Datum : String) (Time Data : List ℚ) (cs : ℤ)
      (evs : List Event) (T D : List ℚ),
      (loopRM interval samples Datum input Time Data cs evs).1 = .ok (T, D) →
      1 ≤ cs → cs ≤ samples + 1 →
      Time = (List.range (cs - 1).toNat).map (fun i : ℕ => (i : ℚ) * sampleRate interval) →
      T = (List.range samples.toNat).map (fun i : ℕ => (i : ℚ) * sampleRate interval) := by
  intro input
  induction input with
  | nil =>
    intro Datum Time Data cs evs T D h h1 h2 hT
    unfold loopRM at h
    split at h
    · rcases hb : loop_body_rm interval Datum Time Data cs with e | ⟨⟨Time', Data', cs'⟩, bev⟩ <;>
        rw [hb] at h <;> simp at h
    · rename_i hcs
      simp only [Outcome.ok.injEq, Prod.mk.injEq] at h
      have hcs1 : (cs - 1).toNat = samples.toNat := by omega
      rw [← h.1, hT, hcs1]
  | cons d rest ih =>
    intro Datum Time Data cs evs T D h h1 h2 hT
    unfold loopRM at h
    split at h
    · rename_i hcs
      rcases hb : loop_body_rm interval Datum Time Data cs with e | ⟨⟨Time', Data', cs'⟩, bev⟩ <;>
        rw [hb] at h
      · simp at h
      · rcases loop_body_rm_state interval Datum Time Data cs Time' Data' cs' bev hb with
          ⟨v, ht', _, hc'⟩ | ⟨ht', _, hc'⟩
        · subst ht'
          subst hc'
          refine ih d _ Data' _ _ T D h (by omega) (by omega) ?_
          rw [hT]
          have hcast : (((cs - 1).toNat : ℚ)) = (cs : ℚ) - 1 := by
            have h' : ((cs - 1).toNat : ℤ) = cs - 1 := Int.toNat_of_nonneg (by omega)
            exact_mod_cast h'
          have htn : (cs + 1 - 1).toNat = (cs - 1).toNat + 1 := by omega
          rw [htn, List.range_succ, List.map_append]
          congr 1
          simp only [List.map_cons, List.map_nil]
          rw [hcast]
          by_cases h0 : interval = 0 <;> simp [sampleRate, h0]
        · subst ht'
          subst hc'
          exact ih d _ Data' _ _ T D h h1 (by omega) hT
    · rename_i hcs
      simp only [Outcome.ok.injEq, Prod.mk.injEq] at h
      have hcs1 : (cs - 1).toNat = samples.toNat := by omega
      rw [← h.1, hT, hcs1]

/-- Legal intervals have a storage-rate command. -/
theorem mem_storage_rate (interval : ℚ)
    (h : interval ∈ ([0, 1, 10, 60, 600, 3600] : List ℚ)) :
    ∃ cmd, storage_rate_cmd interval = some cmd := by
  fin_cases h <;> exact ⟨_, rfl⟩

/-- Illegal intervals hit the `else: raise` branch of the chain. -/
theorem not_mem_storage_rate (interval : ℚ)
    (h : interval ∉ ([0, 1, 10, 60, 600, 3600] : List ℚ)) :
    storage_rate_cmd interval = none := by
  simp only [List.mem_cons, List.mem_singleton, not_or] at h
  obtain ⟨h0, h1, h10, h60, h600, h3600⟩ := h
  simp [storage_rate_cmd, h0, h1, h10, h60, h600, h3600]

/-- The event trace of a single-sample `read` call is that of the
underlying `read_one` run. -/
theorem read_snd_single (interval : ℚ) (input : List String) :
    (read interval 1 input).2 = (read_one_run interval input).2 := by
  unfold read read_one
  norm_num
  rcases read_one_run interval input with ⟨o, evs⟩
  cases o with
  | ok Data => rcases hgl : Data.getLast? with _ | w <;> simp [hgl]
  | err e => simp
  | blocked => simp

/-! ## Theorems -/

/-- C1: for every call to `read` with `samples > 1`, the multi-sample
dispatch evaluates the undefined name `figure` and fails with a
`NameError` before `read_multiple` runs, with no device command sent;
`read` never returns a `(times, values)` pair for `samples > 1`. -/
theorem read_multisample_name_error (interval : ℚ) (samples : ℤ)
    (input : List String) (h : 1 < samples) :
    read interval samples input = (.err (.NameError "figure"), []) := by
  simp [read, h]

theorem read_multisample_name_error_witness :
    (1 : ℤ) < 2 ∧ read 0 2 [] = (.err (.NameError "figure"), []) :=
  ⟨by decide, read_multisample_name_error 0 2 [] (by decide)⟩

/-- C3 (code evaluated at the failing input): a multi-sample call with an
interval outside the legal set fails with `NameError` on `figure`, not with
the invalid-interval `Error`, though no device command is sent; had
`read_multiple` been reached, it would have raised the invalid-interval
`Error`, also with no device command. -/
theorem read_invalid_interval_name_error (input : List String) :
    read 5 2 input = (.err (.NameError "figure"), []) ∧
    read_multiple 5 2 input = (.err (.Error intervalValuesMsg), []) := by
  constructor
  · simp [read]
  · simp [read_multiple]

/-- C4 (code evaluated at the failing input): a request for more than 100
samples fails with `NameError` on `figure`, not with the too-many-samples
`Error`, though no device command is sent; had `read_multiple` been
reached, it would have raised the too-many-samples `Error`, also with no
device command. -/
theorem read_too_many_samples_name_error (input : List String) :
    read 0 101 input = (.err (.NameError "figure"), []) ∧
    read_multiple 0 101 input = (.err (.Error maxSamplesMsg), []) := by
  constructor
  · simp [read]
  · simp [read_multiple]

/-- C2 counterexample: the interval 5 lies in the device's claimed
single-sample range 0–99, yet the single-sample path of `read` raises the
interval-validation `Error` for it before sending any device command. -/
theorem read_single_interval5_cex :
    read 5 1 [] = (.err (.Error sampleIntervalsMsg), []) ∧
    ((0 : ℚ) ≤ 5 ∧ (5 : ℚ) ≤ 99) := by
  with_unfolding_all decide

/-- C2 as amended: the single-sample path constrains `interval` to the same
enumerated set as the multi-sample path — for an interval in the set it
issues its storage-rate device command first (no interval-validation
error), and for any other interval (including the rest of 0–99) it raises
the interval-validation `Error` with no device command sent. -/
theorem read_one_interval_validation (interval : ℚ) (input : List String) :
    if interval ∈ ([0, 1, 10, 60, 600, 3600] : List ℚ) then
      ∃ cmd, storage_rate_cmd interval = some cmd ∧
        (read interval 1 input).2.take 1 = [Event.write cmd]
    else read interval 1 input = (.err (.Error sampleIntervalsMsg), []) := by
  split
  · rename_i hm
    obtain ⟨cmd, hc⟩ := mem_storage_rate interval hm
    refine ⟨cmd, hc, ?_⟩
    rw [read_snd_single]
    unfold read_one_run
    rw [hc]
    cases input with
    | nil => simp
    | cons d rest =>
      obtain ⟨extra, he⟩ := loopRO_events_extend interval 2 rest d [] 1
        [Event.write cmd, Event.readline d]
      rw [he]
      simp
  · rename_i hm
    have hc := not_mem_storage_rate interval hm
    unfold read read_one read_one_run
    rw [hc]
    norm_num

theorem read_one_interval_validation_witness :
    read 7 1 ["a"] = (.err (.Error sampleIntervalsMsg), []) := by
  have h := read_one_interval_validation 7 ["a"]
  rw [if_neg (by norm_num)] at h
  exact h

/-- C5: when a single-sample `read` call returns a value, the underlying
run collected exactly two device samples and the returned scalar is the
second of them (the first is discarded). -/
theorem read_single_returns_second (interval : ℚ) (input : List String) (v : ℚ)
    (h : (read interval 1 input).1 = .ok (.single v)) :
    ∃ x, (read_one_run interval input).1 = .ok [x, v] := by
  unfold read at h
  norm_num at h
  rcases hro : read_one interval input with ⟨o, evs⟩
  rw [hro] at h
  cases o with
  | err e => simp at h
  | blocked => simp at h
  | ok w =>
    simp at h
    subst h
    unfold read_one at hro
    rcases hrr : read_one_run interval input with ⟨o2, evs2⟩
    rw [hrr] at hro
    cases o2 with
    | err e => simp at hro
    | blocked => simp at hro
    | ok Data =>
      have hro' : (match Data.getLast? with
          | some v => ((Outcome.ok v : Outcome ℚ), evs2)
          | none => (Outcome.err PyErr.IndexError, evs2)) = (Outcome.ok w, evs) := hro
      rcases hgl : Data.getLast? with _ | w' <;> rw [hgl] at hro'
      · simp at hro'
      · simp only [Prod.mk.injEq, Outcome.ok.injEq] at hro'
        have hlen : Data.length = 2 := by
          unfold read_one_run at hrr
          rcases hcm : storage_rate_cmd interval with _ | cmd <;> rw [hcm] at hrr
          · simp at hrr
          · cases input with
            | nil => simp at hrr
            | cons d rest =>
              have h1 : loopRO interval 2 d rest [] 1
                  [Event.write cmd, Event.readline d] = (Outcome.ok Data, evs2) := hrr
              have h2 := loopRO_ok_length interval 2 rest d [] 1
                [Event.write cmd, Event.readline d] Data (by rw [h1])
              simpa using h2
        obtain ⟨a, b, rfl⟩ := List.length_eq_two.mp hlen
        simp only [List.getLast?_cons_cons, List.getLast?_singleton,
          Option.some.injEq] at hgl
        refine ⟨a, ?_⟩
        simp [hgl, hro'.1]

theorem read_single_returns_second_witness :
    (read 0 1 ["NDCA+1.0,001", "NDCA+2.5,002", "z"]).1 = .ok (.single (5 / 2)) ∧
    ∃ x, (read_one_run 0 ["NDCA+1.0,001", "NDCA+2.5,002", "z"]).1 = .ok [x, 5 / 2] :=
  ⟨by with_unfolding_all decide,
   read_single_returns_second 0 ["NDCA+1.0,001", "NDCA+2.5,002", "z"] (5 / 2)
     (by with_unfolding_all decide)⟩

/-- C6: a completed multi-sample acquisition of `n > 1` samples returns one
timestamp per sample, the (i+1)-th being `i * 0.360` when the interval is 0
and `i * interval` when it is positive. -/
theorem read_multiple_times (interval : ℚ) (samples : ℤ) (input : List String)
    (Time Data : List ℚ)
    (hn : 1 < samples)
    (h : (read_multiple interval samples input).1 = .ok (Time, Data)) :
    Time.length = samples.toNat ∧
    (interval = 0 → ∀ i (hi : i < Time.length), Time[i] = (i : ℚ) * (36 / 100)) ∧
    (0 < interval → ∀ i (hi : i < Time.length), Time[i] = (i : ℚ) * interval) := by
  unfold read_multiple at h
  split at h
  · simp at h
  · split at h
    · simp at h
    · rcases hc : storage_rate_cmd interval with _ | cmd <;> rw [hc] at h
      · simp at h
      · cases input with
        | nil => simp at h
        | cons d rest =>
          have hT := loopRM_ok_times interval samples rest d [] [] 1
            [Event.write cmd, Event.sleep interval, Event.readline d] Time Data h
            (by omega) (by omega) (by norm_num)
          refine ⟨by simp [hT], ?_, ?_⟩
          · intro h0 i hi
            subst hT
            simp [sampleRate, h0]
          · intro hpos i hi
            have h0 : interval ≠ 0 := ne_of_gt hpos
            subst hT
            simp [sampleRate, h0]

theorem read_multiple_times_witness :
    (1 : ℤ) < 2 ∧
    (read_multiple 10 2 ["NDCA+1.0,001", "NDCA+2.0,002", "x"]).1 = .ok ([0, 10], [1, 2]) ∧
    (([0, 10] : List ℚ).length = (2 : ℤ).toNat ∧
     ((10 : ℚ) = 0 → ∀ i (hi : i < ([0, 10] : List ℚ).length),
        ([(0 : ℚ), 10])[i] = (i : ℚ) * (36 / 100)) ∧
     ((0 : ℚ) < 10 → ∀ i (hi : i < ([0, 10] : List ℚ).length),
        ([(0 : ℚ), 10])[i] = (i : ℚ) * 10)) :=
  ⟨by decide, by with_unfolding_all decide,
   read_multiple_times 10 2 ["NDCA+1.0,001", "NDCA+2.0,002", "x"] [0, 10] [1, 2]
     (by decide) (by with_unfolding_all decide)⟩

/-- C7: an iteration whose response line carries the previous expected
index tag (and not the current one) leaves `Time`, `Data` and
`CurrentSample` unchanged, produces only the pacing sleep, and invokes no
callback — in both the multi-sample and the single-sample loop body. -/
theorem stale_frame_no_effect (interval : ℚ) (Datum : String)
    (Time Data : List ℚ) (cs : ℤ)
    (hcur : pyIn (tag cs) Datum = false)
    (hprev : pyIn (tag (cs - 1)) Datum = true) :
    loop_body_rm interval Datum Time Data cs =
      .ok ((Time, Data, cs), [Event.sleep interval]) ∧
    loop_body_ro interval Datum Data cs =
      .ok ((Data, cs), [Event.sleep interval]) := by
  constructor
  · simp [loop_body_rm, hcur, hprev]
  · simp [loop_body_ro, hcur, hprev]

theorem stale_frame_no_effect_witness :
    pyIn (tag 1) ",000" = false ∧ pyIn (tag (1 - 1)) ",000" = true ∧
    (loop_body_rm 7 ",000" [] [] 1 = .ok (([], [], 1), [Event.sleep 7]) ∧
     loop_body_ro 7 ",000" [] 1 = .ok (([], 1), [Event.sleep 7])) :=
  ⟨by decide, by decide,
   stale_frame_no_effect 7 ",000" [] [] 1 (by decide) (by decide)⟩

/-- C8 counterexample: on the line `"0001.5,001"` at expected index 1, the
claim's value — the float parse of the substring from the start of the line
up to the tag delimiter, `float("0001.5") = 1.5` — differs from the value
the loop body actually appends, `float(Datum[4:Datum.find(',')]) =
float(".5") = 0.5`. -/
theorem parse_from_start_cex :
    pyIn (tag 1) "0001.5,001" = true ∧
    pyFloat (pySlice "0001.5,001" 0 (pyFind "0001.5,001" ',')) = some (3 / 2) ∧
    loop_body_rm 0 "0001.5,001" [] [] 1 =
      .ok (([0], [1 / 2], 2), [Event.callback 0 (1 / 2), Event.sleep 0]) ∧
    ((1 : ℚ) / 2 ≠ 3 / 2) := by
  with_unfolding_all decide

/-- C8 as amended: for every response line accepted as matching the
currently expected index, the value appended (in both loop bodies) is the
float parse of the substring from character index 4 (skipping the device's
four-character reading prefix) up to the first comma, the tag delimiter. -/
theorem accepted_frame_parses_after_prefix (interval : ℚ) (Datum : String)
    (Time Data : List ℚ) (cs : ℤ) (v : ℚ)
    (hcur : pyIn (tag cs) Datum = true)
    (hv : pyFloat (pySlice Datum 4 (pyFind Datum ',')) = some v) :
    (∃ t bev, loop_body_rm interval Datum Time Data cs =
      .ok ((Time ++ [t], Data ++ [v], cs + 1), bev)) ∧
    (∃ bev, loop_body_ro interval Datum Data cs =
      .ok ((Data ++ [v], cs + 1), bev)) := by
  constructor
  · simp only [loop_body_rm, hcur, hv, if_true]
    exact ⟨_, _, rfl⟩
  · simp only [loop_body_ro, hcur, hv, if_true]
    exact ⟨_, rfl⟩

theorem accepted_frame_parses_after_prefix_witness :
    pyIn (tag 1) "NDCA+1.5,001" = true ∧
    pyFloat (pySlice "NDCA+1.5,001" 4 (pyFind "NDCA+1.5,001" ',')) = some (3 / 2) ∧
    ((∃ t bev, loop_body_rm 0 "NDCA+1.5,001" [] [] 1 =
        .ok (([] ++ [t], [] ++ [3 / 2], 1 + 1), bev)) ∧
     (∃ bev, loop_body_ro 0 "NDCA+1.5,001" [] 1 =
        .ok (([] ++ [3 / 2], 1 + 1), bev))) :=
  ⟨by decide, by with_unfolding_all decide,
   accepted_frame_parses_after_prefix 0 "NDCA+1.5,001" [] [] 1 (3 / 2)
     (by decide) (by with_unfolding_all decide)⟩

/-- C9: `set_voltage_source` always ends by sending the two-decimal-place
set-voltage command, and warns exactly when `voltage / 0.05` is farther
than `1e-10` from its rounding; `0.025` warns (and still sends the
command), `0.10` does not warn. -/
theorem set_voltage_source_spec :
    (∀ voltage : ℚ, (set_voltage_source voltage).getLast? =
      some (Event.write ("V" ++ pyFmt2 voltage ++ "X"))) ∧
    (∀ voltage : ℚ, Event.warn resolutionMsg ∈ set_voltage_source voltage ↔
      |voltage / (5 / 100) - (pyRound (voltage / (5 / 100)) : ℚ)| > 1 / 10000000000) ∧
    set_voltage_source (1 / 40) =
      [Event.warn resolutionMsg, Event.write "V0.03X"] ∧
    set_voltage_source (1 / 10) = [Event.write "V0.10X"] := by
  refine ⟨fun voltage => ?_, fun voltage => ?_,
    by with_unfolding_all decide, by with_unfolding_all decide⟩
  · unfold set_voltage_source
    split <;> simp
  · unfold set_voltage_source
    split
    · rename_i hc
      simpa using hc
    · rename_i hc
      simpa using hc

/-- C10: `open_connection` emits exactly the trace open, address, reset,
`C0X` twice, one line read — and fails with the not-responding `Error` iff
the line read lacks the `"DC"` marker, returning normally otherwise. -/
theorem open_connection_spec (reading : String) (rest : List String) :
    ((open_connection (reading :: rest)).1 = .err (.Error notRespondingMsg) ↔
      pyIn "DC" reading = false) ∧
    ((open_connection (reading :: rest)).1 = .ok () ↔
      pyIn "DC" reading = true) ∧
    (open_connection (reading :: rest)).2 =
      [Event.openConn, Event.write "++addr 27", Event.clear,
       Event.write "C0X", Event.write "C0X", Event.readline reading] := by
  by_cases h : pyIn "DC" reading <;> simp [open_connection, h]

end Keithley617
